import Mathlib

/-!
Shallow embedding of `src/vioscsi/virtio_pci.c` (virtio-over-PCI transport
layer of the vioscsi Windows driver) and proofs about it.

Machine-arithmetic conventions: the driver only builds for x86/amd64
(little-endian), where `size_t` and `ULONG_PTR` are unsigned 64-bit.  Values
are modelled as natural numbers, and every `size_t` computation of the
allocator (the bounds check, the ROUND_TO_PAGES macro, the cursor update) is
taken modulo 2^64, as the C unsigned arithmetic wraps.  The
`ADAPTER_EXTENSION` fields used here are modelled from the specification's
data model (the header `vioscsi.h` that declares the struct is not part of
the given sources).  The extent's virtual address range
`[pageAllocationVa, pageAllocationVa + pageAllocationSize)` is a real mapped
memory range and is taken not to wrap.
-/

/-- PAGE_SIZE of the x86/amd64 targets: 4096 bytes. -/
def PAGE_SIZE : Nat := 4096

/-- One more than the largest `size_t` value: 2^64.  Unsigned 64-bit C
arithmetic wraps modulo this constant. -/
def SIZE_T_MOD : Nat := 18446744073709551616

/-- ROUND_TO_PAGES from the WDK, with `size_t` semantics: the macro computes
`(size + PAGE_SIZE - 1) & ~(PAGE_SIZE - 1)` in unsigned 64-bit arithmetic,
so the addition wraps modulo 2^64 before the low bits are cleared; clearing
the low bits of `t` is `t - t % PAGE_SIZE`.  For `size > 2^64 - PAGE_SIZE`
the result therefore wraps instead of rounding up. -/
def ROUND_TO_PAGES (size : Nat) : Nat :=
  ((size + (PAGE_SIZE - 1)) % SIZE_T_MOD) -
    ((size + (PAGE_SIZE - 1)) % SIZE_T_MOD) % PAGE_SIZE

/-- Modelled from the spec: the slice of `ADAPTER_EXTENSION` (declared in the
missing header `vioscsi.h`) that `mem_alloc_contiguous_pages` reads and
writes: `pageAllocationVa` (base of the contiguous extent), `pageOffset`
(bump cursor), `pageAllocationSize` (total bytes of the extent), plus the
byte contents of guest memory, modelled as a function from addresses to
byte values so that zero-filling is observable. -/
structure Adapter where
  pageAllocationVa : Nat
  pageOffset : Nat
  pageAllocationSize : Nat
  mem : Nat → Nat

/-- RtlZeroMemory: write zero to every byte of `[ptr, ptr + len)`. -/
def RtlZeroMemory (m : Nat → Nat) (ptr len : Nat) : Nat → Nat :=
  fun a => if ptr ≤ a ∧ a < ptr + len then 0 else m a

/-- Embedding of `mem_alloc_contiguous_pages` (virtio_pci.c:90-104): compute
the candidate pointer, test `pageOffset + size <= pageAllocationSize` with
the sum computed in `size_t` arithmetic (it wraps modulo 2^64, so an extreme
`size` can pass the check spuriously), round the size up to whole pages with
the wrapping macro, advance the cursor by the rounded size (again modulo
2^64), zero-fill the rounded region and return the candidate; otherwise
return NULL (`none`) and leave the state alone. -/
def mem_alloc_contiguous_pages (st : Adapter) (size : Nat) : Option Nat × Adapter :=
  let ptr := st.pageAllocationVa + st.pageOffset
  if (st.pageOffset + size) % SIZE_T_MOD ≤ st.pageAllocationSize then
    let rsize := ROUND_TO_PAGES size
    (some ptr,
     { st with
        pageOffset := (st.pageOffset + rsize) % SIZE_T_MOD
        mem := RtlZeroMemory st.mem ptr rsize })
  else
    (none, st)

/-- Run a sequence of contiguous-page allocation calls, collecting the
returned pointers and the final adapter state. -/
def allocAll (st : Adapter) : List Nat → List (Option Nat) × Adapter
  | [] => ([], st)
  | s :: rest =>
    let r := mem_alloc_contiguous_pages st s
    let rr := allocAll r.2 rest
    (r.1 :: rr.1, rr.2)

/-- Specification device: the (cursor, page-rounded length) pairs a run of
the bump allocator hands out when it starts at cursor `o`. -/
def regions (o : Nat) : List Nat → List (Nat × Nat)
  | [] => []
  | s :: rest => (o, ROUND_TO_PAGES s) :: regions (o + ROUND_TO_PAGES s) rest

/-- Concrete adapter for the end-to-end scenario: a 3-page (12288-byte)
extent based at 0x100000 whose memory initially holds a nonzero pattern. -/
def scenarioAdapter : Adapter :=
  { pageAllocationVa := 0x100000
    pageOffset := 0
    pageAllocationSize := 12288
    mem := fun _ => 0xCC }

lemma size_le_round (s : Nat) (hs : s + PAGE_SIZE ≤ SIZE_T_MOD) :
    s ≤ ROUND_TO_PAGES s := by
  simp only [ROUND_TO_PAGES, PAGE_SIZE, SIZE_T_MOD] at *
  omega

lemma round_lt_add_page (s : Nat) (hs : s + PAGE_SIZE ≤ SIZE_T_MOD) :
    ROUND_TO_PAGES s < s + PAGE_SIZE := by
  simp only [ROUND_TO_PAGES, PAGE_SIZE, SIZE_T_MOD] at *
  omega

lemma page_dvd_round (s : Nat) : PAGE_SIZE ∣ ROUND_TO_PAGES s := by
  refine ⟨((s + (PAGE_SIZE - 1)) % SIZE_T_MOD) / PAGE_SIZE, ?_⟩
  simp only [ROUND_TO_PAGES, PAGE_SIZE, SIZE_T_MOD]
  omega

lemma round_pos (s : Nat) (h : 0 < s) (hs : s + PAGE_SIZE ≤ SIZE_T_MOD) :
    0 < ROUND_TO_PAGES s := by
  simp only [ROUND_TO_PAGES, PAGE_SIZE, SIZE_T_MOD] at *
  omega

lemma alloc_none_of_lt (st : Adapter) (size : Nat)
    (h : st.pageAllocationSize < (st.pageOffset + size) % SIZE_T_MOD) :
    (mem_alloc_contiguous_pages st size).1 = none := by
  simp [mem_alloc_contiguous_pages, Nat.not_le.mpr h]

/-- Adapter state for the overflow counterexamples: the 12288-byte extent at
0x100000 with the bump cursor already at 4096. -/
def overflowAdapter : Adapter :=
  { pageAllocationVa := 0x100000
    pageOffset := 4096
    pageAllocationSize := 12288
    mem := fun _ => 0xCC }

/-- C1 (amended: the `size_t` sums must not wrap): when
`pageOffset + size < 2^64` the allocator succeeds exactly when
`pageOffset + size ≤ pageAllocationSize`; on success (for an extent size of
at most `2^64 - PAGE_SIZE`) it returns `pageAllocationBase + pageOffset`
(the pre-call cursor), advances the cursor by `size` rounded up to a whole
number of pages, and zero-fills the returned region; a request that exceeds
the remaining space without wrapping returns null.  In the 3-page scenario
three 4000-byte requests succeed with the cursor reaching 4096, 8192,
12288, and any further request of positive size whose sum does not wrap
fails.  (A request with `pageOffset + size ≥ 2^64` wraps the unsigned check
and can succeed spuriously — see the counterexample.) -/
theorem alloc_pages_contract :
    (∀ (st : Adapter) (size : Nat),
      (st.pageOffset + size < SIZE_T_MOD →
        ((mem_alloc_contiguous_pages st size).1.isSome ↔
            st.pageOffset + size ≤ st.pageAllocationSize))
      ∧ (st.pageAllocationSize + PAGE_SIZE ≤ SIZE_T_MOD →
          st.pageOffset + size ≤ st.pageAllocationSize →
          (mem_alloc_contiguous_pages st size).1 =
              some (st.pageAllocationVa + st.pageOffset)
          ∧ (mem_alloc_contiguous_pages st size).2.pageOffset =
              st.pageOffset + ROUND_TO_PAGES size
          ∧ PAGE_SIZE ∣ ROUND_TO_PAGES size
          ∧ size ≤ ROUND_TO_PAGES size
          ∧ ROUND_TO_PAGES size < size + PAGE_SIZE
          ∧ ∀ a, st.pageAllocationVa + st.pageOffset ≤ a →
              a < st.pageAllocationVa + st.pageOffset + ROUND_TO_PAGES size →
              (mem_alloc_contiguous_pages st size).2.mem a = 0)
      ∧ (st.pageOffset + size < SIZE_T_MOD →
          st.pageAllocationSize < st.pageOffset + size →
          (mem_alloc_contiguous_pages st size).1 = none))
    ∧ (mem_alloc_contiguous_pages scenarioAdapter 4000).1 = some 0x100000
    ∧ (mem_alloc_contiguous_pages scenarioAdapter 4000).2.pageOffset = 4096
    ∧ (mem_alloc_contiguous_pages
        (mem_alloc_contiguous_pages scenarioAdapter 4000).2 4000).1 = some 0x101000
    ∧ (mem_alloc_contiguous_pages
        (mem_alloc_contiguous_pages scenarioAdapter 4000).2 4000).2.pageOffset = 8192
    ∧ (mem_alloc_contiguous_pages (mem_alloc_contiguous_pages
        (mem_alloc_contiguous_pages scenarioAdapter 4000).2 4000).2 4000).1 = some 0x102000
    ∧ (mem_alloc_contiguous_pages (mem_alloc_contiguous_pages
        (mem_alloc_contiguous_pages scenarioAdapter 4000).2 4000).2 4000).2.pageOffset = 12288
    ∧ ∀ s : Nat, 0 < s → 12288 + s < SIZE_T_MOD →
        (mem_alloc_contiguous_pages (mem_alloc_contiguous_pages
          (mem_alloc_contiguous_pages (mem_alloc_contiguous_pages
            scenarioAdapter 4000).2 4000).2 4000).2 s).1 = none := by
  refine ⟨fun st size => ⟨fun hnw => ?_, fun hcap h => ?_, fun hnw h => ?_⟩,
      by decide, by decide, by decide, by decide, by decide, by decide, ?_⟩
  · have hmod : (st.pageOffset + size) % SIZE_T_MOD = st.pageOffset + size :=
      Nat.mod_eq_of_lt hnw
    by_cases h : st.pageOffset + size ≤ st.pageAllocationSize <;>
      simp [mem_alloc_contiguous_pages, hmod, h]
  · have hp : PAGE_SIZE = 4096 := rfl
    have hw : SIZE_T_MOD = 18446744073709551616 := rfl
    have hsz : size + PAGE_SIZE ≤ SIZE_T_MOD := by omega
    have hmod1 : (st.pageOffset + size) % SIZE_T_MOD = st.pageOffset + size :=
      Nat.mod_eq_of_lt (by omega)
    have hcheck : (st.pageOffset + size) % SIZE_T_MOD ≤ st.pageAllocationSize := by
      rw [hmod1]; exact h
    have hrlt := round_lt_add_page size hsz
    have hmod2 : (st.pageOffset + ROUND_TO_PAGES size) % SIZE_T_MOD =
        st.pageOffset + ROUND_TO_PAGES size := Nat.mod_eq_of_lt (by omega)
    refine ⟨?_, ?_, page_dvd_round size, size_le_round size hsz, hrlt, ?_⟩
    · simp [mem_alloc_contiguous_pages, hcheck]
    · simp [mem_alloc_contiguous_pages, hcheck, hmod2]
    · intro a h1 h2
      simp only [mem_alloc_contiguous_pages, if_pos hcheck, RtlZeroMemory]
      exact if_pos ⟨h1, h2⟩
  · have hmod : (st.pageOffset + size) % SIZE_T_MOD = st.pageOffset + size :=
      Nat.mod_eq_of_lt hnw
    simp [mem_alloc_contiguous_pages, hmod, Nat.not_le.mpr h]
  · intro s hs hnw
    have hoff : (mem_alloc_contiguous_pages (mem_alloc_contiguous_pages
        (mem_alloc_contiguous_pages scenarioAdapter 4000).2 4000).2 4000).2.pageOffset
        = 12288 := by decide
    have hcap : (mem_alloc_contiguous_pages (mem_alloc_contiguous_pages
        (mem_alloc_contiguous_pages scenarioAdapter 4000).2 4000).2 4000).2.pageAllocationSize
        = 12288 := by decide
    refine alloc_none_of_lt _ s ?_
    rw [hoff, hcap, Nat.mod_eq_of_lt hnw]
    omega

/-- Witness for C1's amended theorem: the first 4000-byte request of the
scenario succeeds and returns the extent base. -/
theorem alloc_pages_contract_witness :
    (mem_alloc_contiguous_pages scenarioAdapter 4000).1 = some 0x100000 :=
  ((alloc_pages_contract.1 scenarioAdapter 4000).2.1 (by decide) (by decide)).1

/-- Counterexample to C1 as stated: the request `size = 2^64 - 3996` at
cursor 4096 is far beyond the 12288-byte extent, yet the `size_t` sum wraps
to 100, the bounds check passes, and the call returns a non-null pointer —
while advancing the cursor by 0 because the rounded size also wraps to 0. -/
theorem alloc_pages_overflow_bypass :
    12288 < 4096 + (SIZE_T_MOD - 3996)
    ∧ (mem_alloc_contiguous_pages overflowAdapter (SIZE_T_MOD - 3996)).1 =
        some (0x100000 + 4096)
    ∧ (mem_alloc_contiguous_pages overflowAdapter (SIZE_T_MOD - 3996)).2.pageOffset
        = 4096 := by
  exact ⟨by decide, by decide, by decide⟩

/-- C3 (amended: the `size_t` sum must not wrap): when
`pageOffset + size < 2^64`, a request that would push the cursor past
`pageAllocationSize` returns null and leaves the whole adapter state, in
particular `pageOffset`, unchanged; and every call that returns null leaves
the state unchanged, so failure is atomic and repeatable.  (When the sum
wraps, the check can pass and the call return non-null — see the
counterexample.) -/
theorem alloc_pages_fail_atomic (st : Adapter) (size : Nat) :
    (st.pageOffset + size < SIZE_T_MOD →
        st.pageAllocationSize < st.pageOffset + size →
        mem_alloc_contiguous_pages st size = (none, st))
    ∧ ((mem_alloc_contiguous_pages st size).1 = none →
        mem_alloc_contiguous_pages st size = (none, st)) := by
  constructor
  · intro hnw h
    have hmod : (st.pageOffset + size) % SIZE_T_MOD = st.pageOffset + size :=
      Nat.mod_eq_of_lt hnw
    simp [mem_alloc_contiguous_pages, hmod, Nat.not_le.mpr h]
  · intro h
    by_cases hc : (st.pageOffset + size) % SIZE_T_MOD ≤ st.pageAllocationSize
    · exact absurd h (by simp [mem_alloc_contiguous_pages, hc])
    · simp [mem_alloc_contiguous_pages, hc]

/-- Counterexample to C3 as stated: at cursor 4096 of a 12288-byte extent,
the request `size = 2^64 - 3996` would push the cursor far past the extent,
but the wrapped `size_t` check passes and the call returns a non-null
pointer instead of the null indication the claim requires. -/
theorem alloc_pages_wrap_returns_non_null :
    12288 < 4096 + (SIZE_T_MOD - 3996)
    ∧ (mem_alloc_contiguous_pages overflowAdapter (SIZE_T_MOD - 3996)).1 ≠ none := by
  exact ⟨by decide, by decide⟩

lemma alloc_mem_zero_preserved (st : Adapter) (s a : Nat) (h : st.mem a = 0) :
    (mem_alloc_contiguous_pages st s).2.mem a = 0 := by
  by_cases hc : (st.pageOffset + s) % SIZE_T_MOD ≤ st.pageAllocationSize
  · simp only [mem_alloc_contiguous_pages, if_pos hc, RtlZeroMemory]
    split
    · rfl
    · exact h
  · simp [mem_alloc_contiguous_pages, hc, h]

lemma allocAll_mem_zero_preserved (sizes : List Nat) :
    ∀ (st : Adapter) (a : Nat), st.mem a = 0 → (allocAll st sizes).2.mem a = 0 := by
  induction sizes with
  | nil => intro st a h; simpa [allocAll] using h
  | cons s rest ih =>
    intro st a h
    simp only [allocAll]
    exact ih _ _ (alloc_mem_zero_preserved st s a h)

lemma allocAll_spec (sizes : List Nat) : ∀ (va o cap : Nat) (m : Nat → Nat),
    cap < SIZE_T_MOD →
    (∀ s ∈ sizes, s + PAGE_SIZE ≤ SIZE_T_MOD) →
    o + (sizes.map ROUND_TO_PAGES).sum ≤ cap →
    (allocAll ⟨va, o, cap, m⟩ sizes).1 =
        (regions o sizes).map (fun reg => some (va + reg.1))
    ∧ (allocAll ⟨va, o, cap, m⟩ sizes).2.pageOffset =
        o + (sizes.map ROUND_TO_PAGES).sum
    ∧ (allocAll ⟨va, o, cap, m⟩ sizes).2.pageAllocationVa = va
    ∧ (allocAll ⟨va, o, cap, m⟩ sizes).2.pageAllocationSize = cap
    ∧ ∀ a, va + o ≤ a → a < va + o + (sizes.map ROUND_TO_PAGES).sum →
        (allocAll ⟨va, o, cap, m⟩ sizes).2.mem a = 0 := by
  induction sizes with
  | nil =>
    intro va o cap m _ _ _
    refine ⟨by simp [allocAll, regions], by simp [allocAll], by simp [allocAll],
      by simp [allocAll], ?_⟩
    intro a h1 h2
    simp only [List.map_nil, List.sum_nil, Nat.add_zero] at h2
    omega
  | cons s rest ih =>
    intro va o cap m hcap hnw h
    simp only [List.map_cons, List.sum_cons] at h
    have hs : s + PAGE_SIZE ≤ SIZE_T_MOD := hnw s (by simp)
    have hle := size_le_round s hs
    have hmod1 : (o + s) % SIZE_T_MOD = o + s := Nat.mod_eq_of_lt (by omega)
    have hcheck : (o + s) % SIZE_T_MOD ≤ cap := by
      rw [hmod1]; omega
    have hmod2 : (o + ROUND_TO_PAGES s) % SIZE_T_MOD = o + ROUND_TO_PAGES s :=
      Nat.mod_eq_of_lt (by omega)
    have hstep : mem_alloc_contiguous_pages ⟨va, o, cap, m⟩ s =
        (some (va + o),
         ⟨va, o + ROUND_TO_PAGES s, cap, RtlZeroMemory m (va + o) (ROUND_TO_PAGES s)⟩) := by
      simp [mem_alloc_contiguous_pages, hcheck, hmod2]
    obtain ⟨ih1, ih2, ih3, ih4, ih5⟩ := ih va (o + ROUND_TO_PAGES s) cap
      (RtlZeroMemory m (va + o) (ROUND_TO_PAGES s)) hcap
      (fun t ht => hnw t (by simp [ht])) (by omega)
    refine ⟨?_, ?_, ?_, ?_, ?_⟩
    · simp only [allocAll, hstep, regions, List.map_cons, ih1]
    · simp only [allocAll, hstep, ih2, List.map_cons, List.sum_cons]
      omega
    · simp only [allocAll, hstep, ih3]
    · simp only [allocAll, hstep, ih4]
    · intro a h1 h2
      simp only [List.map_cons, List.sum_cons] at h2
      simp only [allocAll, hstep]
      by_cases ha : a < va + o + ROUND_TO_PAGES s
      · refine allocAll_mem_zero_preserved rest _ a ?_
        simp only [RtlZeroMemory]
        exact if_pos ⟨h1, ha⟩
      · exact ih5 a (by omega) (by omega)

lemma regions_bounds (sizes : List Nat) : ∀ (o : Nat), ∀ reg ∈ regions o sizes,
    o ≤ reg.1 ∧ reg.1 + reg.2 ≤ o + (sizes.map ROUND_TO_PAGES).sum := by
  induction sizes with
  | nil => intro o reg hreg; simp [regions] at hreg
  | cons s rest ih =>
    intro o reg hreg
    simp only [regions, List.mem_cons] at hreg
    rcases hreg with h | h
    · subst h
      simp only [List.map_cons, List.sum_cons]
      omega
    · have := ih (o + ROUND_TO_PAGES s) reg h
      simp only [List.map_cons, List.sum_cons]
      omega

lemma regions_pairwise (sizes : List Nat) :
    ∀ o, List.Pairwise (fun x y => x.1 + x.2 ≤ y.1) (regions o sizes) := by
  induction sizes with
  | nil => intro o; simp [regions]
  | cons s rest ih =>
    intro o
    simp only [regions, List.pairwise_cons]
    refine ⟨fun reg hreg => ?_, ih _⟩
    have := (regions_bounds rest (o + ROUND_TO_PAGES s) reg hreg).1
    omega

lemma regions_align (sizes : List Nat) : ∀ o, PAGE_SIZE ∣ o →
    ∀ reg ∈ regions o sizes, PAGE_SIZE ∣ reg.1 ∧ PAGE_SIZE ∣ reg.2 := by
  induction sizes with
  | nil => intro o _ reg hreg; simp [regions] at hreg
  | cons s rest ih =>
    intro o ho reg hreg
    simp only [regions, List.mem_cons] at hreg
    rcases hreg with h | h
    · subst h
      exact ⟨ho, page_dvd_round s⟩
    · exact ih (o + ROUND_TO_PAGES s) (ho.add (page_dvd_round s)) reg h

lemma regions_pos (sizes : List Nat) : ∀ o, (∀ s ∈ sizes, 0 < s) →
    (∀ s ∈ sizes, s + PAGE_SIZE ≤ SIZE_T_MOD) →
    ∀ reg ∈ regions o sizes, 0 < reg.2 := by
  induction sizes with
  | nil => intro o _ _ reg hreg; simp [regions] at hreg
  | cons s rest ih =>
    intro o hpos hnw reg hreg
    simp only [regions, List.mem_cons] at hreg
    rcases hreg with h | h
    · subst h
      exact round_pos s (hpos s (by simp)) (hnw s (by simp))
    · exact ih (o + ROUND_TO_PAGES s) (fun t ht => hpos t (by simp [ht]))
        (fun t ht => hnw t (by simp [ht])) reg h

/-- C2 (amended: every request of positive size whose rounding does not wrap
the `size_t` arithmetic, on an extent of representable `size_t` size): a run
of the allocator starting at cursor 0 on a page-aligned extent, whose
cumulative page-rounded request size fits the extent, returns exactly the
pointers `base + regionOffset`; each is inside `[base, base + extentSize)`
and page-aligned, the handed-out page-rounded regions are pairwise disjoint,
and at the end of the run every byte of every handed-out region is zero.
(Without the no-wrap bound on each request the property fails: the macro
rounds `2^64 - 3996` to 0, so such a request does not count towards the
cumulative size yet wraps the bounds check and escapes the extent.) -/
theorem alloc_pages_sequence_invariants (st : Adapter) (sizes : List Nat)
    (hva : PAGE_SIZE ∣ st.pageAllocationVa)
    (hoff : st.pageOffset = 0)
    (hpos : ∀ s ∈ sizes, 0 < s)
    (hnw : ∀ s ∈ sizes, s + PAGE_SIZE ≤ SIZE_T_MOD)
    (hcap : st.pageAllocationSize < SIZE_T_MOD)
    (hsum : (sizes.map ROUND_TO_PAGES).sum ≤ st.pageAllocationSize) :
    (allocAll st sizes).1 =
        (regions 0 sizes).map (fun reg => some (st.pageAllocationVa + reg.1))
    ∧ (∀ r ∈ (allocAll st sizes).1, ∃ p, r = some p
        ∧ st.pageAllocationVa ≤ p
        ∧ p < st.pageAllocationVa + st.pageAllocationSize
        ∧ PAGE_SIZE ∣ p)
    ∧ List.Pairwise (fun x y => x.1 + x.2 ≤ y.1) (regions 0 sizes)
    ∧ ∀ reg ∈ regions 0 sizes, ∀ a,
        st.pageAllocationVa + reg.1 ≤ a →
        a < st.pageAllocationVa + reg.1 + reg.2 →
        (allocAll st sizes).2.mem a = 0 := by
  obtain ⟨va, o, cap, m⟩ := st
  dsimp only at hva hoff hnw hcap hsum ⊢
  subst hoff
  obtain ⟨h1, _h2, _h3, _h4, h5⟩ := allocAll_spec sizes va 0 cap m hcap hnw (by omega)
  simp only [Nat.zero_add, Nat.add_zero] at h1 h5
  refine ⟨h1, ?_, regions_pairwise sizes 0, ?_⟩
  · intro r hr
    rw [h1] at hr
    simp only [List.mem_map] at hr
    obtain ⟨reg, hreg, hr⟩ := hr
    refine ⟨va + reg.1, hr.symm, Nat.le_add_right _ _, ?_, ?_⟩
    · have hb := regions_bounds sizes 0 reg hreg
      have hp := regions_pos sizes 0 hpos hnw reg hreg
      omega
    · exact hva.add (regions_align sizes 0 ⟨0, rfl⟩ reg hreg).1
  · intro reg hreg a ha1 ha2
    have hb := regions_bounds sizes 0 reg hreg
    exact h5 a (by omega) (by omega)

/-- Witness for C2's amended theorem: 4000- and 100-byte requests on a
two-page extent based at 409600 return the two page base addresses. -/
theorem alloc_pages_sequence_invariants_witness :
    (allocAll { pageAllocationVa := 409600, pageOffset := 0,
                pageAllocationSize := 8192, mem := fun _ => 7 } [4000, 100]).1 =
      (regions 0 [4000, 100]).map (fun reg => some (409600 + reg.1)) :=
  (alloc_pages_sequence_invariants
    { pageAllocationVa := 409600, pageOffset := 0,
      pageAllocationSize := 8192, mem := fun _ => 7 } [4000, 100]
    (by decide) rfl (by decide) (by decide) (by decide) (by decide)).1

/-- Without the no-wrap bound on individual request sizes the
sequence-invariants property fails even for all-positive requests: the
wrapping macro rounds `2^64 - 3996` to 0, so the cumulative page-rounded
size of this sequence is only 12288 ≤ 12288, yet the fourth call wraps the
bounds check, succeeds, and returns `base + 12288`, outside the extent. -/
lemma alloc_pages_wrap_sequence_escape :
    (∀ s ∈ [4096, 4096, 4096, SIZE_T_MOD - 3996], 0 < s)
    ∧ (([4096, 4096, 4096, SIZE_T_MOD - 3996].map ROUND_TO_PAGES).sum ≤
        scenarioAdapter.pageAllocationSize)
    ∧ (allocAll scenarioAdapter [4096, 4096, 4096, SIZE_T_MOD - 3996]).1.getLast? =
        some (some (0x100000 + 12288)) := by
  exact ⟨by decide, by decide, by decide⟩

/-- Counterexample to C2 as stated: on a 3-page extent, the request sequence
4096, 4096, 4096, 0 has cumulative page-rounded size 12288 ≤ 12288, yet the
fourth (zero-byte) call succeeds and returns `base + 12288`, which lies
outside `[base, base + extentSize)`. -/
theorem alloc_pages_range_escape :
    (([4096, 4096, 4096, 0].map ROUND_TO_PAGES).sum ≤
        scenarioAdapter.pageAllocationSize)
    ∧ (allocAll scenarioAdapter [4096, 4096, 4096, 0]).1.getLast? =
        some (some (0x100000 + 12288))
    ∧ ¬ (0x100000 + 12288 <
          scenarioAdapter.pageAllocationVa + scenarioAdapter.pageAllocationSize) := by
  refine ⟨by decide, by decide, by decide⟩

/-- Witness for C3's amended theorem: requesting 5 bytes with the cursor at
10 of a 8-byte extent fails and leaves the state untouched. -/
theorem alloc_pages_fail_atomic_witness :
    mem_alloc_contiguous_pages
        { pageAllocationVa := 0, pageOffset := 10, pageAllocationSize := 8,
          mem := fun _ => 0 } 5 =
      (none, { pageAllocationVa := 0, pageOffset := 10, pageAllocationSize := 8,
               mem := fun _ => 0 }) :=
  (alloc_pages_fail_atomic _ 5).1 (by decide) (by decide)

/-! Register Access Unit (virtio_pci.c:30-88).  The source decides between
port I/O and memory-mapped I/O from the address alone: `ulRegister & ~PORT_MASK`
nonzero means memory space.  The StorPort access primitives are abstracted as
an environment function `dev` from (space, address) to value; each embedded
read returns the space it dispatched to together with the value obtained, and
each embedded write returns the access it performs (space, address, value). -/

/-- Address space a register access is dispatched to. -/
inductive Space where
  | port : Space
  | mem : Space
deriving DecidableEq

/-- PORT_MASK from the source: the low 16 bits. -/
def PORT_MASK : Nat := 0xFFFF

/-- Complement of PORT_MASK in the 64-bit `ULONG_PTR` width (`~PORT_MASK`). -/
def NOT_PORT_MASK : Nat := 0xFFFFFFFFFFFF0000

/-- Embedding of `ReadVirtIODeviceRegister` (dword read). -/
def ReadVirtIODeviceRegister (dev : Space → Nat → Nat) (ulRegister : Nat) : Space × Nat :=
  if ulRegister &&& NOT_PORT_MASK ≠ 0 then (Space.mem, dev Space.mem ulRegister)
  else (Space.port, dev Space.port ulRegister)

/-- Embedding of `WriteVirtIODeviceRegister` (dword write). -/
def WriteVirtIODeviceRegister (ulRegister ulValue : Nat) : Space × Nat × Nat :=
  if ulRegister &&& NOT_PORT_MASK ≠ 0 then (Space.mem, ulRegister, ulValue)
  else (Space.port, ulRegister, ulValue)

/-- Embedding of `ReadVirtIODeviceByte`. -/
def ReadVirtIODeviceByte (dev : Space → Nat → Nat) (ulRegister : Nat) : Space × Nat :=
  if ulRegister &&& NOT_PORT_MASK ≠ 0 then (Space.mem, dev Space.mem ulRegister)
  else (Space.port, dev Space.port ulRegister)

/-- Embedding of `WriteVirtIODeviceByte`. -/
def WriteVirtIODeviceByte (ulRegister bValue : Nat) : Space × Nat × Nat :=
  if ulRegister &&& NOT_PORT_MASK ≠ 0 then (Space.mem, ulRegister, bValue)
  else (Space.port, ulRegister, bValue)

/-- Embedding of `ReadVirtIODeviceWord`. -/
def ReadVirtIODeviceWord (dev : Space → Nat → Nat) (ulRegister : Nat) : Space × Nat :=
  if ulRegister &&& NOT_PORT_MASK ≠ 0 then (Space.mem, dev Space.mem ulRegister)
  else (Space.port, dev Space.port ulRegister)

/-- Embedding of `WriteVirtIODeviceWord`. -/
def WriteVirtIODeviceWord (ulRegister wValue : Nat) : Space × Nat × Nat :=
  if ulRegister &&& NOT_PORT_MASK ≠ 0 then (Space.mem, ulRegister, wValue)
  else (Space.port, ulRegister, wValue)

lemma not_port_mask_shift : NOT_PORT_MASK = (2 ^ 48 - 1) <<< 16 := by
  rw [Nat.shiftLeft_eq]
  norm_num [NOT_PORT_MASK]

lemma land_not_port_mask (a : Nat) (ha : a < 2 ^ 64) :
    a &&& NOT_PORT_MASK ≠ 0 ↔ PORT_MASK < a := by
  have low : a ≤ PORT_MASK → a &&& NOT_PORT_MASK = 0 := by
    intro hle
    apply Nat.eq_of_testBit_eq
    intro i
    rw [Nat.testBit_land, Nat.zero_testBit]
    rcases Nat.lt_or_ge i 16 with hi | hi
    · have hm : NOT_PORT_MASK.testBit i = false := by
        rw [not_port_mask_shift, Nat.testBit_shiftLeft]
        simp [Nat.not_le.mpr hi]
      simp [hm]
    · have hax : a.testBit i = false := by
        apply Nat.testBit_lt_two_pow
        have h16 : a < 2 ^ 16 := by
          have hpm : PORT_MASK + 1 = 2 ^ 16 := by norm_num [PORT_MASK]
          omega
        exact Nat.lt_of_lt_of_le h16 (Nat.pow_le_pow_right (by norm_num) hi)
      simp [hax]
  constructor
  · intro hne
    by_contra hle
    exact hne (low (Nat.not_lt.mp hle))
  · intro hlt h0
    have hq : a >>> 16 ≠ 0 := by
      rw [Nat.shiftRight_eq_div_pow]
      have : 2 ^ 16 ≤ a := by
        have : PORT_MASK + 1 = 2 ^ 16 := by norm_num [PORT_MASK]
        omega
      have := Nat.one_le_div_iff (by norm_num : 0 < 2 ^ 16) |>.mpr this
      omega
    obtain ⟨j, hj⟩ := Nat.ne_zero_implies_bit_true hq
    rw [Nat.testBit_shiftRight] at hj
    have hj48 : j < 48 := by
      by_contra hge
      have hlt48 : a < 2 ^ (16 + j) := by
        calc a < 2 ^ 64 := ha
          _ ≤ 2 ^ (16 + j) := Nat.pow_le_pow_right (by norm_num) (by omega)
      rw [Nat.testBit_lt_two_pow hlt48] at hj
      exact Bool.false_ne_true hj
    have hmask : NOT_PORT_MASK.testBit (16 + j) = true := by
      rw [not_port_mask_shift, Nat.testBit_shiftLeft]
      simp only [Nat.testBit_two_pow_sub_one]
      have h1 : 16 ≤ 16 + j := by omega
      simp [h1]
      omega
    have : (a &&& NOT_PORT_MASK).testBit (16 + j) = true := by
      rw [Nat.testBit_land, hj, hmask]
      rfl
    rw [h0, Nat.zero_testBit] at this
    exact Bool.false_ne_true this

/-- C5: every register read and write, at all three widths, dispatches to the
memory space exactly when `address & ~PORT_MASK` is nonzero — equivalently,
for 64-bit addresses, exactly when the address has a bit set outside the low
16 bits (`0xFFFF < a`) — and otherwise to the port space; the accessed
address and the transferred value pass through unchanged. -/
theorem register_dispatch_spec (a v : Nat) (dev : Space → Nat → Nat)
    (ha : a < 2 ^ 64) :
    ((a &&& NOT_PORT_MASK ≠ 0) ↔ PORT_MASK < a)
    ∧ (ReadVirtIODeviceRegister dev a).1 =
        (if PORT_MASK < a then Space.mem else Space.port)
    ∧ (ReadVirtIODeviceRegister dev a).2 = dev (ReadVirtIODeviceRegister dev a).1 a
    ∧ (ReadVirtIODeviceByte dev a).1 =
        (if PORT_MASK < a then Space.mem else Space.port)
    ∧ (ReadVirtIODeviceByte dev a).2 = dev (ReadVirtIODeviceByte dev a).1 a
    ∧ (ReadVirtIODeviceWord dev a).1 =
        (if PORT_MASK < a then Space.mem else Space.port)
    ∧ (ReadVirtIODeviceWord dev a).2 = dev (ReadVirtIODeviceWord dev a).1 a
    ∧ WriteVirtIODeviceRegister a v =
        ((if PORT_MASK < a then Space.mem else Space.port), a, v)
    ∧ WriteVirtIODeviceByte a v =
        ((if PORT_MASK < a then Space.mem else Space.port), a, v)
    ∧ WriteVirtIODeviceWord a v =
        ((if PORT_MASK < a then Space.mem else Space.port), a, v) := by
  have hb := land_not_port_mask a ha
  by_cases hlt : PORT_MASK < a
  · have hc : a &&& NOT_PORT_MASK ≠ 0 := hb.mpr hlt
    refine ⟨hb, ?_, ?_, ?_, ?_, ?_, ?_, ?_, ?_, ?_⟩ <;>
      simp [ReadVirtIODeviceRegister, ReadVirtIODeviceByte, ReadVirtIODeviceWord,
        WriteVirtIODeviceRegister, WriteVirtIODeviceByte, WriteVirtIODeviceWord,
        hc, hlt]
  · have hc : ¬ (a &&& NOT_PORT_MASK ≠ 0) := fun hx => hlt (hb.mp hx)
    refine ⟨hb, ?_, ?_, ?_, ?_, ?_, ?_, ?_, ?_, ?_⟩ <;>
      simp [ReadVirtIODeviceRegister, ReadVirtIODeviceByte, ReadVirtIODeviceWord,
        WriteVirtIODeviceRegister, WriteVirtIODeviceByte, WriteVirtIODeviceWord,
        hc, hlt]

/-- Witness for C5: address 0x10000 (one above the port range) dispatches a
dword read to memory space. -/
theorem register_dispatch_spec_witness :
    (ReadVirtIODeviceRegister (fun _ r => r + 1) 0x10000).1 = Space.mem := by
  have h := (register_dispatch_spec 0x10000 0 (fun _ r => r + 1) (by norm_num)).2.1
  rw [h]
  norm_num [PORT_MASK]

/-! PCI Configuration Reader (virtio_pci.c:135-154).  Each function is a pure
lookup into the adapter's cached snapshot `pci_config_buf`, modelled as a list
of byte values; `*(u16 *)&buf[where]` and `*(u32 *)&buf[where]` are the
little-endian compositions of the snapshot bytes, because the driver builds
only for the little-endian x86/amd64 targets.  An out-of-range offset (the C
code performs an unchecked out-of-bounds read there) is modelled as `none`. -/

/-- Embedding of `pci_read_config_byte`. -/
def pci_read_config_byte (pci_config_buf : List Nat) (w : Nat) : Option Nat :=
  pci_config_buf[w]?

/-- Embedding of `pci_read_config_word` (little-endian u16 load). -/
def pci_read_config_word (pci_config_buf : List Nat) (w : Nat) : Option Nat :=
  match pci_config_buf[w]?, pci_config_buf[w + 1]? with
  | some b0, some b1 => some (b0 + 0x100 * b1)
  | _, _ => none

/-- Embedding of `pci_read_config_dword` (little-endian u32 load). -/
def pci_read_config_dword (pci_config_buf : List Nat) (w : Nat) : Option Nat :=
  match pci_config_buf[w]?, pci_config_buf[w + 1]?, pci_config_buf[w + 2]?,
      pci_config_buf[w + 3]? with
  | some b0, some b1, some b2, some b3 =>
      some (b0 + 0x100 * b1 + 0x10000 * b2 + 0x1000000 * b3)
  | _, _, _, _ => none

/-- Concrete PCI configuration snapshot for the scenario: byte 0x2E = 0x34,
byte 0x2F = 0x12, followed by two further bytes. -/
def cfgExample : List Nat :=
  List.replicate 0x2E 0 ++ [0x34, 0x12, 0xAA, 0xBB]

/-- C8: each config read is a pure function of the snapshot bytes: a byte
read returns the snapshot byte, a word read the little-endian composition of
the two snapshot bytes at the offset, and a dword read the little-endian
composition of the four snapshot bytes. -/
theorem config_read_little_endian (pci_config_buf : List Nat) (w b0 b1 b2 b3 : Nat) :
    (pci_config_buf[w]? = some b0 →
        pci_read_config_byte pci_config_buf w = some b0)
    ∧ (pci_config_buf[w]? = some b0 → pci_config_buf[w + 1]? = some b1 →
        pci_read_config_word pci_config_buf w = some (b0 + 0x100 * b1))
    ∧ (pci_config_buf[w]? = some b0 → pci_config_buf[w + 1]? = some b1 →
        pci_config_buf[w + 2]? = some b2 → pci_config_buf[w + 3]? = some b3 →
        pci_read_config_dword pci_config_buf w =
          some (b0 + 0x100 * b1 + 0x10000 * b2 + 0x1000000 * b3)) := by
  refine ⟨fun h0 => ?_, fun h0 h1 => ?_, fun h0 h1 h2 h3 => ?_⟩
  · simpa [pci_read_config_byte] using h0
  · simp [pci_read_config_word, h0, h1]
  · simp [pci_read_config_dword, h0, h1, h2, h3]

/-- Witness for C8: reading the config word at offset 0x2E of the scenario
snapshot yields 0x1234 (little-endian composition of 0x34 and 0x12). -/
theorem config_read_little_endian_witness :
    pci_read_config_word cfgExample 0x2E = some 0x1234 := by
  have h := (config_read_little_endian cfgExample 0x2E 0x34 0x12 0xAA 0xBB).2.1
    (by decide) (by decide)
  norm_num at h
  exact h

/-! Interrupt Vector Resolver (virtio_pci.c:195-213). -/

/-- Modelled from the spec: `VIRTIO_MSI_NO_VECTOR`, the "no vector" sentinel
of the virtio PCI headers (`VirtIO_PCI.h` is not among the given sources);
per the virtio specification it is the all-ones u16, 0xFFFF. -/
def VIRTIO_MSI_NO_VECTOR : Nat := 0xFFFF

/-- Embedding of `vdev_get_msix_vector`: for a queue index `queue ≥ 0` with
MSI-X enabled the source computes `u16 vector = queue + 1`, a truncation of
the int sum to 16 bits (modelled as `% 65536`; the wrap of the 32-bit int
addition itself is invisible modulo 2^16); with MSI-X disabled, and for every
negative queue index (the configuration-change pseudo-channel), it returns
the sentinel. -/
def vdev_get_msix_vector (msix_enabled : Bool) (queue : Int) : Nat :=
  if 0 ≤ queue then
    if msix_enabled then (queue + 1).toNat % 0x10000
    else VIRTIO_MSI_NO_VECTOR
  else VIRTIO_MSI_NO_VECTOR

/-- C7 (amended: the vector is the 16-bit truncation of `queueIndex + 1`,
which equals `queueIndex + 1` whenever `queueIndex < 0xFFFF`): for `k ≥ 0`
the resolver returns `(k + 1) mod 2^16` when MSI-X is enabled — hence exactly
`k + 1` for `k < 0xFFFF` — and the sentinel when disabled; for every negative
queue index it returns the sentinel regardless of the MSI-X state. -/
theorem msix_vector_spec (msix_enabled : Bool) (queue : Int) :
    (0 ≤ queue → msix_enabled = true →
        vdev_get_msix_vector msix_enabled queue = (queue + 1).toNat % 0x10000)
    ∧ (0 ≤ queue → queue < 0xFFFF → msix_enabled = true →
        vdev_get_msix_vector msix_enabled queue = (queue + 1).toNat)
    ∧ (0 ≤ queue → msix_enabled = false →
        vdev_get_msix_vector msix_enabled queue = VIRTIO_MSI_NO_VECTOR)
    ∧ (queue < 0 →
        vdev_get_msix_vector msix_enabled queue = VIRTIO_MSI_NO_VECTOR) := by
  refine ⟨fun hq he => ?_, fun hq hlt he => ?_, fun hq he => ?_, fun hq => ?_⟩
  · simp [vdev_get_msix_vector, hq, he]
  · subst he
    simp [vdev_get_msix_vector, hq]
    omega
  · subst he
    simp [vdev_get_msix_vector, hq]
  · simp [vdev_get_msix_vector, Int.not_le.mpr hq]

/-- Witness for C7's amended theorem: queue 3 with MSI-X enabled resolves to
vector 4. -/
theorem msix_vector_spec_witness :
    vdev_get_msix_vector true 3 = (3 + 1 : Int).toNat :=
  (msix_vector_spec true 3).2.1 (by decide) (by decide) rfl

/-- Counterexample to C7 as stated: at queue index 0xFFFF with MSI-X enabled
the u16 assignment wraps, so the resolver returns 0, not `k + 1`. -/
theorem msix_vector_truncates :
    vdev_get_msix_vector true 0xFFFF = 0
    ∧ vdev_get_msix_vector true 0xFFFF ≠ 0xFFFF + 1 := by
  refine ⟨by decide, by decide⟩

/-- C10: with MSI-X enabled the returned vector is the 16-bit truncation
`(k + 1) mod 2^16` for every non-negative queue index `k`; in particular at
k = 0xFFFE it wraps onto the "no vector" sentinel 0xFFFF, and at k = 0xFFFF
it wraps to 0. -/
theorem msix_vector_wrap :
    (∀ queue : Int, 0 ≤ queue →
        vdev_get_msix_vector true queue = (queue + 1).toNat % 0x10000)
    ∧ vdev_get_msix_vector true 0xFFFE = VIRTIO_MSI_NO_VECTOR
    ∧ vdev_get_msix_vector true 0xFFFF = 0 := by
  refine ⟨fun queue hq => ?_, by decide, by decide⟩
  simp [vdev_get_msix_vector, hq]

/-- Witness for C10: queue index 70000 resolves to 70001 mod 65536. -/
theorem msix_vector_wrap_witness :
    vdev_get_msix_vector true 70000 = (70000 + 1 : Int).toNat % 0x10000 :=
  msix_vector_wrap.1 70000 (by decide)

/-! BAR table (virtio_pci.c:156-193).  `PCI_TYPE0_ADDRESSES` (the standard
PCI BAR count, 6, from the Windows SDK) sizes the adapter's `pci_bars` array.
The C functions guard the index only with `bar < PCI_TYPE0_ADDRESSES`; since
`bar` is a signed `int`, a negative index passes the guard and indexes the
array out of bounds — that undefined access is modelled by the outer `none`.
`StorPortGetDeviceBase` is abstracted as a host oracle from (bus number,
physical base, length, port-space flag) to an optional mapped base, and each
call of `pci_map_address_range` reports how many host mapping requests it
issued. -/

/-- Standard PCI BAR count (PCI_TYPE0_ADDRESSES in the Windows SDK). -/
def PCI_TYPE0_ADDRESSES : Nat := 6

/-- Modelled from the spec: one entry of the adapter's BAR table (the
`VIRTIO_BAR` struct lives in a header that is not among the given sources):
physical base, length, port-space flag, and the lazily populated mapped
base (`pBase`, null until mapped). -/
structure VIRTIO_BAR where
  BasePA : Nat
  uLength : Nat
  bPortSpace : Bool
  pBase : Option Nat

/-- Outcome of one `pci_map_address_range` call: the returned pointer (null
= `none`), the BAR table afterwards, and the number of host mapping requests
(`StorPortGetDeviceBase` calls) the call issued. -/
structure MapResult where
  ret : Option Nat
  bars : Fin 6 → VIRTIO_BAR
  hostRequests : Nat

/-- Embedding of `pci_get_resource_len`: the C guard is only
`bar < PCI_TYPE0_ADDRESSES`; for `bar ≥ 6` it returns 0, and for a negative
`bar` it reads `pci_bars[bar]` out of bounds (modelled as `none`). -/
def pci_get_resource_len (pci_bars : Fin 6 → VIRTIO_BAR) (bar : Int) : Option Nat :=
  if h6 : bar < 6 then
    if h0 : 0 ≤ bar then some (pci_bars ⟨bar.toNat, by omega⟩).uLength
    else none
  else some 0

/-- Embedding of `pci_map_address_range`: same `bar < PCI_TYPE0_ADDRESSES`
guard (negative `bar` again reaches the out-of-bounds access, modelled as the
outer `none`); on a valid index, if the BAR's `pBase` is unset it requests a
mapping from the host and stores the result (even a null one) in the table;
it returns `pBase + offset` when the base is non-null and
`offset < uLength`, and NULL otherwise.  `maxlen` is accepted and ignored,
as in the source. -/
def pci_map_address_range (host : Nat → Nat → Nat → Bool → Option Nat)
    (system_io_bus_number : Nat) (pci_bars : Fin 6 → VIRTIO_BAR)
    (bar : Int) (offset maxlen : Nat) : Option MapResult :=
  if h6 : bar < 6 then
    if h0 : 0 ≤ bar then
      let i : Fin 6 := ⟨bar.toNat, by omega⟩
      let pBar := pci_bars i
      match pBar.pBase with
      | some b =>
        if offset < pBar.uLength then some ⟨some (b + offset), pci_bars, 0⟩
        else some ⟨none, pci_bars, 0⟩
      | none =>
        let nb := host system_io_bus_number pBar.BasePA pBar.uLength pBar.bPortSpace
        let pci_bars' := Function.update pci_bars i { pBar with pBase := nb }
        match nb with
        | some b =>
          if offset < pBar.uLength then some ⟨some (b + offset), pci_bars', 1⟩
          else some ⟨none, pci_bars', 1⟩
        | none => some ⟨none, pci_bars', 1⟩
    else none
  else some ⟨none, pci_bars, 0⟩

/-- BAR table whose entries are all unmapped, memory-space, 0x1000 bytes. -/
def exampleBars : Fin 6 → VIRTIO_BAR :=
  fun _ => { BasePA := 0xE0000000, uLength := 0x1000, bPortSpace := false, pBase := none }

/-- Host oracle whose mapping requests always fail. -/
def hostNone : Nat → Nat → Nat → Bool → Option Nat := fun _ _ _ _ => none

/-- Host oracle that always maps at base 0x9000. -/
def hostSome : Nat → Nat → Nat → Bool → Option Nat := fun _ _ _ _ => some 0x9000

/-- C4 (code bug): indices ≥ 6 are rejected as the claim says (length 0,
null pointer, no table access), but the guard `bar < PCI_TYPE0_ADDRESSES`
on a signed `int` lets a negative index through to an out-of-bounds read of
`pci_bars[bar]` (the modelled undefined access `none`), instead of the 0 /
null return the claim requires. -/
theorem bar_index_guard_misses_negative :
    pci_get_resource_len exampleBars (-1) = none
    ∧ pci_get_resource_len exampleBars (-1) ≠ some 0
    ∧ pci_get_resource_len exampleBars 6 = some 0
    ∧ pci_get_resource_len exampleBars 7 = some 0
    ∧ pci_map_address_range hostNone 0 exampleBars (-1) 0 0x100 = none
    ∧ pci_map_address_range hostNone 0 exampleBars 6 0 0x100 =
        some { ret := none, bars := exampleBars, hostRequests := 0 } := by
  exact ⟨rfl, by decide, rfl, rfl, rfl, rfl⟩

lemma pci_map_valid_cached (host : Nat → Nat → Nat → Bool → Option Nat)
    (bus : Nat) (bars : Fin 6 → VIRTIO_BAR) (i : Fin 6) (offset maxlen b : Nat)
    (hb : (bars i).pBase = some b) :
    pci_map_address_range host bus bars ((i : Nat) : Int) offset maxlen =
      some (if offset < (bars i).uLength
            then ⟨some (b + offset), bars, 0⟩
            else ⟨none, bars, 0⟩) := by
  have h6 : ((i : Nat) : Int) < 6 := by exact_mod_cast i.isLt
  have h0 : (0 : Int) ≤ ((i : Nat) : Int) := Int.natCast_nonneg _
  simp only [pci_map_address_range, dif_pos h6, dif_pos h0, Int.toNat_natCast,
    Fin.eta, hb]
  split <;> rfl

lemma pci_map_valid_unset_found (host : Nat → Nat → Nat → Bool → Option Nat)
    (bus : Nat) (bars : Fin 6 → VIRTIO_BAR) (i : Fin 6) (offset maxlen b : Nat)
    (hb : (bars i).pBase = none)
    (hhost : host bus (bars i).BasePA (bars i).uLength (bars i).bPortSpace = some b) :
    pci_map_address_range host bus bars ((i : Nat) : Int) offset maxlen =
      some (if offset < (bars i).uLength
            then ⟨some (b + offset), Function.update bars i { bars i with pBase := some b }, 1⟩
            else ⟨none, Function.update bars i { bars i with pBase := some b }, 1⟩) := by
  have h6 : ((i : Nat) : Int) < 6 := by exact_mod_cast i.isLt
  have h0 : (0 : Int) ≤ ((i : Nat) : Int) := Int.natCast_nonneg _
  simp only [pci_map_address_range, dif_pos h6, dif_pos h0, Int.toNat_natCast,
    Fin.eta, hb, hhost]
  split <;> rfl

lemma pci_map_valid_unset_failed (host : Nat → Nat → Nat → Bool → Option Nat)
    (bus : Nat) (bars : Fin 6 → VIRTIO_BAR) (i : Fin 6) (offset maxlen : Nat)
    (hb : (bars i).pBase = none)
    (hhost : host bus (bars i).BasePA (bars i).uLength (bars i).bPortSpace = none) :
    pci_map_address_range host bus bars ((i : Nat) : Int) offset maxlen =
      some ⟨none, Function.update bars i { bars i with pBase := none }, 1⟩ := by
  have h6 : ((i : Nat) : Int) < 6 := by exact_mod_cast i.isLt
  have h0 : (0 : Int) ≤ ((i : Nat) : Int) := Int.natCast_nonneg _
  simp only [pci_map_address_range, dif_pos h6, dif_pos h0, Int.toNat_natCast,
    Fin.eta, hb, hhost]

/-- C6 (amended: provided the host mapping request returns a non-null base):
for a valid BAR index whose mapped base is unset, the first call issues
exactly one host mapping request, caches the returned base in the BAR table,
and returns `mappedBase + offset` when `offset < uLength`; a second call with
the same index and offset issues no host mapping request, leaves the table
unchanged and returns the same pointer; and no call overwrites an
already-cached non-null base.  (When the host request returns null, the base
stays unset and a later call issues a new request — see the
counterexample.) -/
theorem map_range_cached (host : Nat → Nat → Nat → Bool → Option Nat)
    (bus : Nat) (bars : Fin 6 → VIRTIO_BAR) (i : Fin 6)
    (offset maxlen₁ maxlen₂ mb : Nat)
    (hunset : (bars i).pBase = none)
    (hhost : host bus (bars i).BasePA (bars i).uLength (bars i).bPortSpace = some mb) :
    ∃ r1 r2 : MapResult,
      pci_map_address_range host bus bars ((i : Nat) : Int) offset maxlen₁ = some r1
      ∧ pci_map_address_range host bus r1.bars ((i : Nat) : Int) offset maxlen₂ = some r2
      ∧ r1.hostRequests = 1
      ∧ r2.hostRequests = 0
      ∧ (r1.bars i).pBase = some mb
      ∧ r2.bars = r1.bars
      ∧ r2.ret = r1.ret
      ∧ (offset < (bars i).uLength → r1.ret = some (mb + offset))
      ∧ (∀ j : Fin 6, ∀ b : Nat, (bars j).pBase = some b → (r1.bars j).pBase = some b) := by
  have h1 := pci_map_valid_unset_found host bus bars i offset maxlen₁ mb hunset hhost
  have hset : (Function.update bars i { bars i with pBase := some mb } i).pBase
      = some mb := by
    rw [Function.update_same]
  have hlen : (Function.update bars i { bars i with pBase := some mb } i).uLength
      = (bars i).uLength := by
    rw [Function.update_same]
  have hpreserve : ∀ j : Fin 6, ∀ b : Nat, (bars j).pBase = some b →
      (Function.update bars i { bars i with pBase := some mb } j).pBase = some b := by
    intro j b hjb
    by_cases hji : j = i
    · subst hji
      rw [hjb] at hunset
      exact absurd hunset (by simp)
    · rw [Function.update_noteq hji]
      exact hjb
  have h2 := pci_map_valid_cached host bus
    (Function.update bars i { bars i with pBase := some mb }) i offset maxlen₂ mb hset
  rw [hlen] at h2
  by_cases hoff : offset < (bars i).uLength
  · rw [if_pos hoff] at h1 h2
    exact ⟨_, _, h1, h2, rfl, rfl, hset, rfl, rfl, fun _ => rfl, hpreserve⟩
  · rw [if_neg hoff] at h1 h2
    exact ⟨_, _, h1, h2, rfl, rfl, hset, rfl, rfl, fun h => absurd h hoff, hpreserve⟩

/-- BAR table for the mapping scenarios: all BARs unmapped, 0x1000 bytes,
memory space. -/
def bars2 : Fin 6 → VIRTIO_BAR :=
  fun _ => { BasePA := 0xFEB00000, uLength := 0x1000, bPortSpace := false, pBase := none }

/-- Witness for C6's amended theorem: BAR 0 of length 0x1000, unmapped, with
a host that maps it at 0x9000; the first call at offset 0x500 issues one
request and returns 0x9500, the second issues none and returns the same. -/
theorem map_range_cached_witness :
    ∃ r1 r2 : MapResult,
      pci_map_address_range hostSome 0 bars2 (((0 : Fin 6) : Nat) : Int) 0x500 0x100 = some r1
      ∧ pci_map_address_range hostSome 0 r1.bars (((0 : Fin 6) : Nat) : Int) 0x500 0x100 = some r2
      ∧ r1.hostRequests = 1
      ∧ r2.hostRequests = 0
      ∧ (r1.bars (0 : Fin 6)).pBase = some 0x9000
      ∧ r2.bars = r1.bars
      ∧ r2.ret = r1.ret
      ∧ (0x500 < (bars2 (0 : Fin 6)).uLength → r1.ret = some (0x9000 + 0x500))
      ∧ (∀ j : Fin 6, ∀ b : Nat, (bars2 j).pBase = some b → (r1.bars j).pBase = some b) :=
  map_range_cached hostSome 0 bars2 (0 : Fin 6) 0x500 0x100 0x100 0x9000 rfl rfl

/-- Counterexample to C6 as stated: if the host mapping request fails (returns
null), nothing usable is cached, and the second identical call issues a new
host mapping request (`hostRequests = 1` again) instead of none. -/
theorem map_range_refails_after_null :
    ∃ r1 r2 : MapResult,
      pci_map_address_range hostNone 0 bars2 0 0x500 0x100 = some r1
      ∧ pci_map_address_range hostNone 0 r1.bars 0 0x500 0x100 = some r2
      ∧ r1.hostRequests = 1
      ∧ r2.hostRequests = 1
      ∧ r2.hostRequests ≠ 0 := by
  exact ⟨_, _, rfl, rfl, rfl, rfl, by decide⟩

/-- C9: `maxlen` is dead: two calls of `pci_map_address_range` differing only
in `maxlen` return identical results (same pointer, same BAR table, same
number of host requests); in particular a call may return a pointer even
though fewer than `maxlen` bytes remain before the end of the BAR (offset
0xFFF of a 0x1000-byte BAR with maxlen 0x100). -/
theorem map_range_maxlen_irrelevant :
    (∀ (host : Nat → Nat → Nat → Bool → Option Nat) (bus : Nat)
        (bars : Fin 6 → VIRTIO_BAR) (bar : Int) (offset m₁ m₂ : Nat),
        pci_map_address_range host bus bars bar offset m₁ =
          pci_map_address_range host bus bars bar offset m₂)
    ∧ (∃ r : MapResult,
        pci_map_address_range hostSome 0 bars2 0 0xFFF 0x100 = some r
        ∧ r.ret = some (0x9000 + 0xFFF)
        ∧ (bars2 (0 : Fin 6)).uLength < 0xFFF + 0x100) := by
  exact ⟨fun host bus bars bar offset m₁ m₂ => rfl, ⟨_, rfl, rfl, by decide⟩⟩
